import Mathlib

set_option maxHeartbeats 1000000

/-!
Verification of the request persistence and lifecycle layer of a
disaster-relief application.  The submission-form logic (`validate_phone`,
`validate_coordinates`, `victim_submit`) is translated from `src/app.py`.
The storage backend operations (`append_request_row`, `read_all_requests`,
`read_requests_by_status`, `update_request_status`) and the geolocation
resolver (`haversine_distance`) live in a `utils` module that is not among
the source files; those definitions are modelled from the specification.
-/

/-- Status of a request: the four lifecycle states of the data model. -/
inductive Status where
  | pending
  | ongoing
  | helped
  | cancelled
  deriving DecidableEq

/-- Request record, mirroring the dictionary built by the submission form in
`src/app.py` (lines 413-427).  Geographic coordinates are modelled as
rationals and are optional. -/
structure Request where
  id : String
  timestamp : String
  name : String
  phone : String
  address : String
  need : String
  urgency : String
  extra : String
  lat : Option ℚ
  lon : Option ℚ
  status : Status
  responder : String
  deriving DecidableEq

/-- Cell of one backing-table column: a text cell, a numeric cell, or an
empty cell. -/
inductive Cell where
  | str (s : String)
  | num (q : ℚ)
  | blank
  deriving DecidableEq

/-- Row of the backing table: column headers paired with stored cells. -/
abbrev Row := List (String × Cell)

/-- Read a text cell from a row by column name. -/
def getStr (row : Row) (k : String) : Option String :=
  match row.lookup k with
  | some (Cell.str s) => some s
  | _ => none

/-- Decode the textual status column into a lifecycle state. -/
def parseStatus (s : String) : Option Status :=
  if s = "pending" then some Status.pending
  else if s = "ongoing" then some Status.ongoing
  else if s = "helped" then some Status.helped
  else if s = "cancelled" then some Status.cancelled
  else none

/-- Encode a lifecycle state as the stored status text. -/
def statusToString : Status → String
  | Status.pending => "pending"
  | Status.ongoing => "ongoing"
  | Status.helped => "helped"
  | Status.cancelled => "cancelled"

/-- Modelled from the spec: row decoding for the read path of the request
store (the `utils` read implementation is missing from the sources).  A row
is well-formed when every data-model column is present with the right kind
of cell, the status cell holds one of the four states, and the coordinate
cells are either both numeric or both blank; any other row is malformed. -/
def parseRow (row : Row) : Option Request :=
  match getStr row "id", getStr row "timestamp", getStr row "name",
      getStr row "phone", getStr row "address", getStr row "need",
      getStr row "urgency", getStr row "extra",
      (getStr row "status").bind parseStatus, getStr row "responder",
      row.lookup "lat", row.lookup "lon" with
  | some id, some ts, some nm, some ph, some ad, some nd, some ur, some ex,
      some st, some rp, some latc, some lonc =>
    match latc, lonc with
    | Cell.num a, Cell.num b =>
        some ⟨id, ts, nm, ph, ad, nd, ur, ex, some a, some b, st, rp⟩
    | Cell.blank, Cell.blank =>
        some ⟨id, ts, nm, ph, ad, nd, ur, ex, none, none, st, rp⟩
    | _, _ => none
  | _, _, _, _, _, _, _, _, _, _, _, _ => none

/-- Cell holding an optional coordinate. -/
def coordCell : Option ℚ → Cell
  | some q => Cell.num q
  | none => Cell.blank

/-- Modelled from the spec: encoding of a record as one table row with the
data-model field names as column headers. -/
def encodeRow (r : Request) : Row :=
  [("id", Cell.str r.id), ("timestamp", Cell.str r.timestamp),
   ("name", Cell.str r.name), ("phone", Cell.str r.phone),
   ("address", Cell.str r.address), ("need", Cell.str r.need),
   ("urgency", Cell.str r.urgency), ("extra", Cell.str r.extra),
   ("lat", coordCell r.lat), ("lon", coordCell r.lon),
   ("status", Cell.str (statusToString r.status)),
   ("responder", Cell.str r.responder)]

/-- Modelled from the spec: `read_all` returns every well-formed record in
storage order and skips malformed rows instead of failing. -/
def read_all_requests (rows : List Row) : List Request :=
  rows.filterMap parseRow

/-- Modelled from the spec: `read_by_status` is `read_all` filtered by
status, over the same read path, not a separate index. -/
def read_requests_by_status (s : Status) (rows : List Row) : List Request :=
  (read_all_requests rows).filter (fun r => decide (r.status = s))

/-- Modelled from the spec: the forward-only status state machine
pending to ongoing to helped, with cancelled reachable from pending or
ongoing; no backward step is legal. -/
def legalTransition : Status → Status → Bool
  | Status.pending, Status.ongoing => true
  | Status.pending, Status.cancelled => true
  | Status.ongoing, Status.helped => true
  | Status.ongoing, Status.cancelled => true
  | _, _ => false

/-- Modelled from the spec: `update_status(id, new_status, responder)` looks
the record up by id (failure when absent, no record created), rejects
transitions that are not legal forward steps without mutating anything,
requires a supplied non-empty responder on entering ongoing (written
together with the status change), and rewrites exactly the matched row. -/
def update_request_status (rows : List Row) (id : String) (new : Status)
    (resp : Option String) : Bool × List Row :=
  match rows with
  | [] => (false, [])
  | row :: rest =>
    match parseRow row with
    | some rec =>
      if rec.id = id then
        if legalTransition rec.status new then
          if new = Status.ongoing then
            if resp.getD "" = "" then (false, row :: rest)
            else
              (true,
                encodeRow
                    { rec with status := new, responder := resp.getD "" } ::
                  rest)
          else (true, encodeRow { rec with status := new } :: rest)
        else (false, row :: rest)
      else
        let next := update_request_status rest id new resp
        (next.1, row :: next.2)
    | none =>
      let next := update_request_status rest id new resp
      (next.1, row :: next.2)

/-- First stored record carrying the given id, as seen through the read
path. -/
def findRecord (rows : List Row) (id : String) : Option Request :=
  (read_all_requests rows).find? (fun r => decide (r.id = id))

/-- Valid geographic range check of `validate_coordinates`
(src/app.py lines 285-296). -/
def inRange (lat lon : ℚ) : Bool :=
  decide (-90 ≤ lat) && decide (lat ≤ 90) &&
    decide (-180 ≤ lon) && decide (lon ≤ 180)

/-- Embedding of `validate_coordinates` (src/app.py lines 285-296): the
string arguments arrive as already-parsed optional rationals, `none`
standing for a float-conversion failure. -/
def validate_coordinates (latv lonv : Option ℚ) : Bool × ℚ × ℚ :=
  match latv, lonv with
  | some lat, some lon =>
      if inRange lat lon then (true, lat, lon) else (false, 0, 0)
  | _, _ => (false, 0, 0)

/-- Membership of the need field in the data-model enumeration. -/
def needOk (need : String) : Bool :=
  need == "Water" || need == "Food" || need == "Medical" ||
    need == "Shelter" || need == "Evacuation" || need == "Other"

/-- Coordinate pairing invariant: both coordinates present and inside the
valid geographic range, or both absent. -/
def coordPaired (lat lon : Option ℚ) : Bool :=
  match lat, lon with
  | some a, some b => inRange a b
  | none, none => true
  | _, _ => false

/-- Modelled from the spec: the data-model invariants validated by `append`
of the missing store module — non-empty system and required text fields,
need inside the enumeration, and geocoordinate pairing. -/
def validRequest (r : Request) : Bool :=
  !(r.id == "") && !(r.timestamp == "") && !(r.name == "") &&
    !(r.phone == "") && !(r.address == "") && needOk r.need &&
    coordPaired r.lat r.lon

/-- Modelled from the spec: `append` assigns the generated id and creation
timestamp when they are not already set, and forces the initial pending
status. -/
def finalize (r : Request) (genId genTs : String) : Request :=
  { r with
    id := if r.id = "" then genId else r.id,
    timestamp := if r.timestamp = "" then genTs else r.timestamp,
    status := Status.pending }

/-- Modelled from the spec: `append(request)` validates the data-model
invariants, sets the pending status, and persists the full record at the
end of the table; `none` is the validation-failure outcome. -/
def append_request_row (rows : List Row) (r : Request)
    (genId genTs : String) : Option (List Row) :=
  let fin := finalize r genId genTs
  if validRequest fin then some (rows ++ [encodeRow fin]) else none

/-- Characters kept by the cleaning step of `validate_phone`
(src/app.py line 281): decimal digits and the plus sign. -/
def keepPhoneChar (c : Char) : Bool :=
  c.isDigit || c == '+'

/-- Cleaned form of a phone number: every other character deleted. -/
def cleanPhone (phone : String) : List Char :=
  phone.toList.filter keepPhoneChar

/-- Embedding of `validate_phone` (src/app.py lines 278-283). -/
def validate_phone (phone : String) : Bool :=
  let cleaned := cleanPhone phone
  decide (10 ≤ cleaned.length) &&
    (cleaned.head? == some '+' ||
      (!cleaned.isEmpty && cleaned.all Char.isDigit))

/-- Equality on the requester-supplied fields of two records. -/
def userEq (a b : Request) : Bool :=
  decide (a.name = b.name) && decide (a.phone = b.phone) &&
    decide (a.address = b.address) && decide (a.extra = b.extra) &&
    decide (a.need = b.need) && decide (a.urgency = b.urgency) &&
    decide (a.lat = b.lat) && decide (a.lon = b.lon)

/-- Embedding of the submission handler of `victim_view` (src/app.py lines
374-432): the geocoder, the generated request id and the creation timestamp
are parameters; the returned record is the one handed to the store append,
with `none` when validation fails and nothing is persisted. -/
def victim_submit (g : String → Option (ℚ × ℚ)) (genId ts : String)
    (name phone need urgency extra address : String) : Option Request :=
  let nameErr : List String :=
    if name.trim = "" then ["Please enter your full name"] else []
  let phoneErr : List String :=
    if phone.trim = "" then ["Phone number is required"]
    else if !validate_phone phone then
      ["Please enter a valid phone number"]
    else []
  let geo := if address.trim = "" then none else g address
  let addrErr : List String :=
    if address.trim = "" then ["Address is required"]
    else
      match g address with
      | some _ => []
      | none => ["Address could not be found on the map"]
  let errors := nameErr ++ phoneErr ++ addrErr
  if errors.isEmpty then
    match geo with
    | some (a, b) =>
        some { id := genId, timestamp := ts, name := name.trim,
               phone := phone.trim,
               address :=
                 if address = "" then toString a ++ ", " ++ toString b
                 else address.trim,
               need := need, urgency := urgency, extra := extra.trim,
               lat := some a, lon := some b,
               status := Status.pending, responder := "" }
    | none => none
  else none

/-- Degrees to radians. -/
noncomputable def toRad (d : ℝ) : ℝ :=
  d * (Real.pi / 180)

/-- Modelled from the spec: great-circle distance in kilometres by the
haversine formula on a spherical earth of radius 6371 km, idealised over
the real numbers (the implementation lives in the missing `utils`
module). -/
noncomputable def haversine_distance (lat1 lon1 lat2 lon2 : ℝ) : ℝ :=
  2 * 6371 * Real.arcsin (Real.sqrt (
    Real.sin (toRad (lat2 - lat1) / 2) ^ 2 +
      Real.cos (toRad lat1) * Real.cos (toRad lat2) *
        Real.sin (toRad (lon2 - lon1) / 2) ^ 2))

/-- Invariant of the data model: every stored record in the ongoing state
carries a non-empty responder. -/
def responderInv (rows : List Row) : Prop :=
  ∀ rec ∈ read_all_requests rows,
    rec.status = Status.ongoing → rec.responder ≠ ""

/-- Concrete pending record used to exercise the theorems. -/
def recPending : Request :=
  ⟨"r0", "t0", "Ann", "+12345678901", "12 Oak St", "Water",
   "Medium - Urgent", "", some 10, some 20, Status.pending, ""⟩

/-- Concrete completed record used to exercise the theorems. -/
def recHelped : Request :=
  ⟨"r1", "t1", "Bea", "+19876543210", "9 Elm St", "Food",
   "Low - Non-urgent", "", some 5, some 6, Status.helped, "Vol"⟩

/-- Concrete submission with unset system fields used to exercise the
theorems. -/
def sampleReq : Request :=
  ⟨"", "", "A", "+11234567890", "123 Main St", "Water",
   "High - Life threatening", "", some (1297 / 100), some (7759 / 100),
   Status.pending, ""⟩

/-- Geocoder that never finds an address. -/
def geoNone : String → Option (ℚ × ℚ) :=
  fun _ => none

/-- Malformed stored row: every column after the id is missing. -/
def corruptRow : Row :=
  [("id", Cell.str "broken")]

/-- A record produced by the read path has paired coordinate presence. -/
theorem parseRow_paired (row : Row) (rec : Request)
    (h : parseRow row = some rec) : rec.lat.isSome = rec.lon.isSome := by
  unfold parseRow at h
  split at h
  · split at h
    · cases h; rfl
    · cases h; rfl
    · exact absurd h (by simp)
  · exact absurd h (by simp)

/-- Decoding the status text written by the encoder recovers the state. -/
theorem parseStatus_statusToString (s : Status) :
    parseStatus (statusToString s) = some s := by
  cases s <;> rfl

/-- Round trip of a record through its table row, for records whose
coordinate presence is paired. -/
theorem parseRow_encodeRow (r : Request)
    (h : r.lat.isSome = r.lon.isSome) :
    parseRow (encodeRow r) = some r := by
  obtain ⟨id, ts, nm, ph, ad, nd, ur, ex, lat, lon, st, rp⟩ := r
  cases lat with
  | none =>
    cases lon with
    | none => cases st <;> rfl
    | some b => simp at h
  | some a =>
    cases lon with
    | none => simp at h
    | some b => cases st <;> rfl

/-- Read path over a cons of a well-formed row. -/
theorem read_all_cons_some (row : Row) (rest : List Row) (rec : Request)
    (h : parseRow row = some rec) :
    read_all_requests (row :: rest) = rec :: read_all_requests rest := by
  simp [read_all_requests, List.filterMap_cons, h]

/-- Read path over a cons of a malformed row. -/
theorem read_all_cons_none (row : Row) (rest : List Row)
    (h : parseRow row = none) :
    read_all_requests (row :: rest) = read_all_requests rest := by
  simp [read_all_requests, List.filterMap_cons, h]

/-- C7: a single malformed stored row never makes the whole read fail; the
read returns all well-formed records with the malformed row omitted. -/
theorem readAllSkipsMalformed (pre post : List Row) (bad : Row)
    (h : parseRow bad = none) :
    read_all_requests (pre ++ bad :: post) =
      read_all_requests pre ++ read_all_requests post := by
  simp [read_all_requests, List.filterMap_append, List.filterMap_cons, h]

/-- Witness for C7 at a concrete store holding one corrupt row. -/
theorem readAllSkipsMalformed_witness :
    read_all_requests ([encodeRow recPending] ++ corruptRow ::
        [encodeRow recHelped]) =
      read_all_requests [encodeRow recPending] ++
        read_all_requests [encodeRow recHelped] :=
  readAllSkipsMalformed [encodeRow recPending] [encodeRow recHelped]
    corruptRow rfl

/-- C8: the haversine distance is zero on identical points and symmetric in
its two points. -/
theorem haversineSymmZero :
    (∀ lat lon : ℝ, haversine_distance lat lon lat lon = 0) ∧
      (∀ a b c d : ℝ,
        haversine_distance a b c d = haversine_distance c d a b) := by
  have hflip : ∀ x y : ℝ,
      Real.sin (toRad (x - y) / 2) ^ 2 = Real.sin (toRad (y - x) / 2) ^ 2 := by
    intro x y
    have h1 : toRad (x - y) = -(toRad (y - x)) := by
      unfold toRad; ring
    rw [h1, neg_div, Real.sin_neg, neg_sq]
  constructor
  · intro lat lon
    simp [haversine_distance, toRad]
  · intro a b c d
    unfold haversine_distance
    rw [hflip c a, hflip d b, mul_comm (Real.cos (toRad a)) (Real.cos (toRad c))]

/-- C9: the haversine distance between the points (0,0) and (0,1) is 111.2
kilometres up to a relative error of one percent. -/
theorem haversineOneDegree :
    |haversine_distance 0 0 0 1 - 111.2| ≤ 0.01 * 111.2 := by
  have hpi := Real.pi_pos
  have hval : haversine_distance 0 0 0 1 = 6371 * Real.pi / 180 := by
    unfold haversine_distance
    have h0 : toRad (0 - 0) = 0 := by unfold toRad; ring
    have h1 : toRad ((1 : ℝ) - 0) / 2 = Real.pi / 360 := by
      unfold toRad; ring
    have hc : Real.cos (toRad 0) = 1 := by
      unfold toRad; simp
    rw [h0, h1, hc]
    have hs : Real.sin (0 / 2) = 0 := by simp
    rw [hs]
    have hsin : (0 : ℝ) ≤ Real.sin (Real.pi / 360) := by
      apply Real.sin_nonneg_of_nonneg_of_le_pi
      · positivity
      · nlinarith
    have hsq : Real.sqrt (0 ^ 2 + 1 * 1 * Real.sin (Real.pi / 360) ^ 2) =
        Real.sin (Real.pi / 360) := by
      rw [show (0 : ℝ) ^ 2 + 1 * 1 * Real.sin (Real.pi / 360) ^ 2 =
        Real.sin (Real.pi / 360) ^ 2 by ring]
      rw [Real.sqrt_sq_eq_abs, abs_of_nonneg hsin]
    rw [hsq]
    rw [Real.arcsin_sin (by nlinarith) (by nlinarith)]
    ring
  rw [hval, abs_le]
  have hl := Real.pi_gt_d6
  have hu := Real.pi_lt_d6
  constructor
  · nlinarith
  · nlinarith

/-- Splitting a record list by the four lifecycle states is a permutation
of the whole list. -/
theorem statusPartitionPerm (l : List Request) :
    List.Perm
      (l.filter (fun r => decide (r.status = Status.pending)) ++
        (l.filter (fun r => decide (r.status = Status.ongoing)) ++
          (l.filter (fun r => decide (r.status = Status.helped)) ++
            l.filter (fun r => decide (r.status = Status.cancelled))))) l := by
  induction l with
  | nil => simp
  | cons a t ih =>
    cases hs : a.status with
    | pending =>
      simp [List.filter_cons, hs]
      exact ih
    | ongoing =>
      simp [List.filter_cons, hs]
      exact List.Perm.trans List.perm_middle (List.Perm.cons a ih)
    | helped =>
      simp [List.filter_cons, hs]
      refine List.Perm.trans (List.Perm.append_left _ List.perm_middle) ?_
      exact List.Perm.trans List.perm_middle (List.Perm.cons a ih)
    | cancelled =>
      simp [List.filter_cons, hs]
      refine List.Perm.trans
        (List.Perm.append_left _ (List.Perm.append_left _ List.perm_middle)) ?_
      refine List.Perm.trans (List.Perm.append_left _ List.perm_middle) ?_
      exact List.Perm.trans List.perm_middle (List.Perm.cons a ih)

/-- C6: for every status, the filtered read returns exactly the records of
the full read with that status — every member has the requested status, the
result is a sublist of the full read, and the four filtered reads together
are a permutation of the full read. -/
theorem readByStatusFilter (rows : List Row) (s : Status) :
    (∀ r ∈ read_requests_by_status s rows, r.status = s) ∧
      List.Sublist (read_requests_by_status s rows)
        (read_all_requests rows) ∧
      List.Perm
        (read_requests_by_status Status.pending rows ++
          (read_requests_by_status Status.ongoing rows ++
            (read_requests_by_status Status.helped rows ++
              read_requests_by_status Status.cancelled rows)))
        (read_all_requests rows) := by
  refine ⟨?_, ?_, ?_⟩
  · intro r hr
    have := List.of_mem_filter hr
    exact of_decide_eq_true this
  · exact List.filter_sublist _
  · exact statusPartitionPerm (read_all_requests rows)

/-- Witness for C6 at a concrete two-record store. -/
theorem readByStatusFilter_witness :
    List.Perm
      (read_requests_by_status Status.pending
          [encodeRow recPending, encodeRow recHelped] ++
        (read_requests_by_status Status.ongoing
            [encodeRow recPending, encodeRow recHelped] ++
          (read_requests_by_status Status.helped
              [encodeRow recPending, encodeRow recHelped] ++
            read_requests_by_status Status.cancelled
              [encodeRow recPending, encodeRow recHelped])))
      (read_all_requests [encodeRow recPending, encodeRow recHelped]) :=
  (readByStatusFilter [encodeRow recPending, encodeRow recHelped]
    Status.pending).2.2

/-- C1: the status machine is exactly the forward state machine of the
specification, and on a store whose record with the given id sits in a
state from which the requested new status is not a legal forward step, the
update returns failure and leaves the store unchanged. -/
theorem updateStatusForwardOnly :
    (∀ s t : Status, legalTransition s t = true ↔
        ((s = Status.pending ∧ t = Status.ongoing) ∨
          (s = Status.ongoing ∧ t = Status.helped) ∨
          (s = Status.pending ∧ t = Status.cancelled) ∨
          (s = Status.ongoing ∧ t = Status.cancelled))) ∧
      ∀ (id : String) (new : Status) (resp : Option String)
        (rec : Request) (rows : List Row),
        findRecord rows id = some rec →
        legalTransition rec.status new = false →
        update_request_status rows id new resp = (false, rows) := by
  constructor
  · intro s t
    cases s <;> cases t <;> simp [legalTransition]
  · intro id new resp rec rows
    induction rows with
    | nil =>
      intro hfind
      simp [findRecord, read_all_requests] at hfind
    | cons row rest ih =>
      intro hfind hleg
      cases hp : parseRow row with
      | some rec' =>
        by_cases hid : rec'.id = id
        · have hrec : rec' = rec := by
            rw [findRecord, read_all_cons_some row rest rec' hp] at hfind
            rw [List.find?_cons_of_pos _ (by simp [hid])] at hfind
            exact Option.some.inj hfind
          subst hrec
          simp only [update_request_status, hp]
          rw [if_pos hid, hleg]
          simp
        · have hfind' : findRecord rest id = some rec := by
            rw [findRecord, read_all_cons_some row rest rec' hp] at hfind
            rw [List.find?_cons_of_neg _ (by simp [hid])] at hfind
            exact hfind
          simp only [update_request_status, hp]
          rw [if_neg hid]
          simp [ih hfind' hleg]
      | none =>
        have hfind' : findRecord rest id = some rec := by
          rw [findRecord, read_all_cons_none row rest hp] at hfind
          exact hfind
        simp only [update_request_status, hp]
        simp [ih hfind' hleg]

/-- Witness for C1: moving a completed record back to ongoing fails and
leaves the concrete store unchanged. -/
theorem updateStatusForwardOnly_witness :
    update_request_status [encodeRow recHelped] "r1" Status.ongoing
        (some "Bob") = (false, [encodeRow recHelped]) :=
  updateStatusForwardOnly.2 "r1" Status.ongoing (some "Bob") recHelped
    [encodeRow recHelped] (by rfl) (by rfl)

/-- C3: updating an id that identifies no stored record returns failure and
leaves the store unchanged, so no record is created. -/
theorem updateStatusMissingId (id : String) (new : Status)
    (resp : Option String) (rows : List Row)
    (h : ∀ rec ∈ read_all_requests rows, rec.id ≠ id) :
    update_request_status rows id new resp = (false, rows) := by
  induction rows with
  | nil => rfl
  | cons row rest ih =>
    cases hp : parseRow row with
    | some rec' =>
      have hmem : rec' ∈ read_all_requests (row :: rest) := by
        rw [read_all_cons_some row rest rec' hp]
        exact List.mem_cons_self rec' _
      have hrest : ∀ rec ∈ read_all_requests rest, rec.id ≠ id := by
        intro rec hr
        refine h rec ?_
        rw [read_all_cons_some row rest rec' hp]
        exact List.mem_cons_of_mem rec' hr
      simp only [update_request_status, hp]
      rw [if_neg (h rec' hmem)]
      simp [ih hrest]
    | none =>
      have hrest : ∀ rec ∈ read_all_requests rest, rec.id ≠ id := by
        intro rec hr
        refine h rec ?_
        rw [read_all_cons_none row rest hp]
        exact hr
      simp only [update_request_status, hp]
      simp [ih hrest]

/-- Witness for C3: a store holding one record is untouched by an update
naming an unknown id. -/
theorem updateStatusMissingId_witness :
    update_request_status [encodeRow recPending] "zzz" Status.ongoing
        (some "Bob") = (false, [encodeRow recPending]) :=
  updateStatusMissingId "zzz" Status.ongoing (some "Bob")
    [encodeRow recPending] (by decide)

/-- Responder invariant over a cons of a well-formed row. -/
theorem responderInv_cons_some (row : Row) (rec' : Request) (l : List Row)
    (hp : parseRow row = some rec') :
    responderInv (row :: l) ↔
      ((rec'.status = Status.ongoing → rec'.responder ≠ "") ∧
        responderInv l) := by
  unfold responderInv
  rw [read_all_cons_some row l rec' hp]
  exact List.forall_mem_cons

/-- Responder invariant over a cons of a malformed row. -/
theorem responderInv_cons_none (row : Row) (l : List Row)
    (hp : parseRow row = none) :
    responderInv (row :: l) ↔ responderInv l := by
  unfold responderInv
  rw [read_all_cons_none row l hp]

/-- C5: a successful transition into ongoing always carries a supplied
non-empty responder, and the update operation preserves the invariant that
every stored ongoing record has a non-empty responder. -/
theorem ongoingHasResponder :
    (∀ (rows : List Row) (id : String) (resp : Option String),
        (update_request_status rows id Status.ongoing resp).1 = true →
        ∃ s, resp = some s ∧ s ≠ "") ∧
      ∀ (rows : List Row) (id : String) (new : Status)
        (resp : Option String),
        responderInv rows →
        responderInv (update_request_status rows id new resp).2 := by
  constructor
  · intro rows id resp
    induction rows with
    | nil => intro h; simp [update_request_status] at h
    | cons row rest ih =>
      intro h
      cases hp : parseRow row with
      | some rec' =>
        simp only [update_request_status, hp] at h
        by_cases hid : rec'.id = id
        · rw [if_pos hid] at h
          by_cases hleg :
              legalTransition rec'.status Status.ongoing = true
          · by_cases hs : resp.getD "" = ""
            · rw [hleg] at h
              simp [hs] at h
            · cases resp with
              | none => exact absurd rfl hs
              | some s => exact ⟨s, rfl, hs⟩
          · rw [if_neg hleg] at h
            simp at h
        · rw [if_neg hid] at h
          exact ih (by simpa using h)
      | none =>
        simp only [update_request_status, hp] at h
        exact ih (by simpa using h)
  · intro rows id new resp hinv
    induction rows with
    | nil =>
      intro rec hrec
      simp [update_request_status, read_all_requests] at hrec
    | cons row rest ih =>
      cases hp : parseRow row with
      | some rec' =>
        have hsplit := (responderInv_cons_some row rec' rest hp).mp hinv
        have hhead := hsplit.1
        have hrest := hsplit.2
        have hpair : rec'.lat.isSome = rec'.lon.isSome :=
          parseRow_paired row rec' hp
        by_cases hid : rec'.id = id
        · simp only [update_request_status, hp]
          rw [if_pos hid]
          by_cases hleg : legalTransition rec'.status new = true
          · rw [hleg, if_pos rfl]
            by_cases hnew : new = Status.ongoing
            · rw [if_pos hnew]
              by_cases hs : resp.getD "" = ""
              · rw [if_pos hs]; exact hinv
              · rw [if_neg hs]
                show responderInv (encodeRow { rec' with status := new, responder := resp.getD "" } :: rest)
                rw [responderInv_cons_some _
                  { rec' with status := new, responder := resp.getD "" }
                  rest (parseRow_encodeRow _ hpair)]
                exact ⟨fun _ => hs, hrest⟩
            · rw [if_neg hnew]
              show responderInv
                (encodeRow { rec' with status := new } :: rest)
              rw [responderInv_cons_some _ { rec' with status := new } rest
                (parseRow_encodeRow _ hpair)]
              refine ⟨fun hst => absurd hst hnew, hrest⟩
          · rw [if_neg hleg]
            exact hinv
        · simp only [update_request_status, hp]
          rw [if_neg hid]
          show responderInv
            (row :: (update_request_status rest id new resp).2)
          rw [responderInv_cons_some row rec' _ hp]
          exact ⟨hhead, ih hrest⟩
      | none =>
        have hrest := (responderInv_cons_none row rest hp).mp hinv
        simp only [update_request_status, hp]
        show responderInv
          (row :: (update_request_status rest id new resp).2)
        rw [responderInv_cons_none row _ hp]
        exact ih hrest

/-- Witness for C5: accepting a concrete pending request with responder
Bob keeps the responder invariant. -/
theorem ongoingHasResponder_witness :
    responderInv (update_request_status [encodeRow recPending] "r0"
      Status.ongoing (some "Bob")).2 :=
  ongoingHasResponder.2 [encodeRow recPending] "r0" Status.ongoing
    (some "Bob")
    (by
      intro rec hmem hst
      rw [show read_all_requests [encodeRow recPending] = [recPending]
        from rfl] at hmem
      simp at hmem
      subst hmem
      exact absurd hst (by decide))

/-- The validation run by the store append forces the system fields to be
set and the coordinates paired. -/
theorem validRequest_fields (r : Request) (h : validRequest r = true) :
    r.id ≠ "" ∧ r.timestamp ≠ "" ∧ coordPaired r.lat r.lon = true := by
  simp only [validRequest, Bool.and_eq_true, Bool.not_eq_true',
    beq_eq_false_iff_ne, ne_eq] at h
  exact ⟨h.1.1.1.1.1.1, h.1.1.1.1.1.2, h.2⟩

/-- Pairing of the stored coordinates forces equal presence. -/
theorem coordPaired_isSome (lat lon : Option ℚ)
    (h : coordPaired lat lon = true) : lat.isSome = lon.isSome := by
  cases lat <;> cases lon <;> simp_all [coordPaired]

/-- The finalized record agrees with the submission on every
requester-supplied field. -/
theorem userEq_finalize (r : Request) (genId genTs : String) :
    userEq r (finalize r genId genTs) = true := by
  simp [userEq, finalize]

/-- C2: appending a valid request stores exactly one new record that agrees
with the submission on every requester-supplied field, carries set system
fields, and starts pending; the rest of the read is unchanged. -/
theorem appendThenReadAll (rows : List Row) (r : Request)
    (genId genTs : String)
    (hv : validRequest (finalize r genId genTs) = true) :
    append_request_row rows r genId genTs =
        some (rows ++ [encodeRow (finalize r genId genTs)]) ∧
      read_all_requests (rows ++ [encodeRow (finalize r genId genTs)]) =
        read_all_requests rows ++ [finalize r genId genTs] ∧
      userEq r (finalize r genId genTs) = true ∧
      (finalize r genId genTs).status = Status.pending ∧
      (finalize r genId genTs).id ≠ "" ∧
      (finalize r genId genTs).timestamp ≠ "" ∧
      ((read_all_requests rows).countP (fun rec => userEq r rec) = 0 →
        (read_all_requests
            (rows ++ [encodeRow (finalize r genId genTs)])).countP
          (fun rec => userEq r rec) = 1) := by
  have hfields := validRequest_fields _ hv
  have hpair := coordPaired_isSome _ _ hfields.2.2
  have hround := parseRow_encodeRow (finalize r genId genTs) hpair
  have hread : read_all_requests
      (rows ++ [encodeRow (finalize r genId genTs)]) =
      read_all_requests rows ++ [finalize r genId genTs] := by
    simp [read_all_requests, List.filterMap_append, List.filterMap_cons,
      hround]
  refine ⟨?_, hread, userEq_finalize r genId genTs, rfl, hfields.1,
    hfields.2.1, ?_⟩
  · simp [append_request_row, hv]
  · intro h0
    rw [hread, List.countP_append, h0]
    simp [List.countP_cons, userEq_finalize r genId genTs]

/-- Witness for C2 appending a concrete valid submission to the empty
store. -/
theorem appendThenReadAll_witness :
    validRequest (finalize sampleReq "g1" "t9") = true ∧
      append_request_row [] sampleReq "g1" "t9" =
        some ([] ++ [encodeRow (finalize sampleReq "g1" "t9")]) :=
  ⟨by
      norm_num [validRequest, finalize, sampleReq, needOk, coordPaired,
        inRange]
      refine ⟨⟨⟨⟨?_, ?_⟩, ?_⟩, ?_⟩, ?_⟩ <;> decide,
    (appendThenReadAll [] sampleReq "g1" "t9"
      (by
        norm_num [validRequest, finalize, sampleReq, needOk, coordPaired,
          inRange]
        refine ⟨⟨⟨⟨?_, ?_⟩, ?_⟩, ?_⟩, ?_⟩ <;> decide)).1⟩

/-- C4: when the geocoder only produces in-range pairs, every record the
submission handler persists carries both coordinates in range; a submission
whose address fails geocoding persists nothing; and the store append
refuses any record whose coordinate pairing is broken. -/
theorem coordinatePairing (g : String → Option (ℚ × ℚ))
    (genId ts nm ph nd ur ex ad : String)
    (hg : ∀ a p q, g a = some (p, q) → inRange p q = true) :
    (∀ r, victim_submit g genId ts nm ph nd ur ex ad = some r →
        ∃ a b, r.lat = some a ∧ r.lon = some b ∧ inRange a b = true) ∧
      (g ad = none → victim_submit g genId ts nm ph nd ur ex ad = none) ∧
      ∀ (rows : List Row) (r : Request) (gid gts : String),
        coordPaired r.lat r.lon = false →
        append_request_row rows r gid gts = none := by
  refine ⟨?_, ?_, ?_⟩
  · intro r hr
    unfold victim_submit at hr
    by_cases haddr : ad.trim = ""
    · simp [haddr] at hr
    · simp only [if_neg haddr] at hr
      cases hga : g ad with
      | none =>
        rw [hga] at hr
        simp at hr
      | some pq =>
        obtain ⟨a, b⟩ := pq
        rw [hga] at hr
        by_cases hnm : nm.trim = ""
        · simp [hnm] at hr
        · by_cases hph : ph.trim = ""
          · simp [hnm, hph] at hr
          · by_cases hv : validate_phone ph = true
            · simp [hnm, hph, hv] at hr
              subst hr
              exact ⟨a, b, rfl, rfl, hg ad a b hga⟩
            · simp [hnm, hph, hv] at hr
  · intro hnone
    unfold victim_submit
    by_cases haddr : ad.trim = ""
    · simp [haddr]
    · simp [haddr, hnone]
  · intro rows r gid gts hcp
    have hcp' : coordPaired (finalize r gid gts).lat
        (finalize r gid gts).lon = false := hcp
    simp [append_request_row, validRequest, hcp']

/-- Witness for C4: a concrete submission whose address fails geocoding is
not persisted. -/
theorem coordinatePairing_witness :
    victim_submit geoNone "g1" "t0" "A" "+11234567890" "Water"
      "High - Life threatening" "" "123 Main St" = none :=
  (coordinatePairing geoNone "g1" "t0" "A" "+11234567890" "Water"
    "High - Life threatening" "" "123 Main St"
    (by intro a p q h; simp [geoNone] at h)).2.1 rfl

/-- C10: the phone validator is total and accepts exactly the strings whose
cleaned form has at least ten characters and either starts with a plus or
is all digits; a submission failing the check is never persisted. -/
theorem validatePhoneSpec (phone : String) :
    (validate_phone phone = true ↔
        (10 ≤ (cleanPhone phone).length ∧
          ((cleanPhone phone).head? = some '+' ∨
            ∀ c ∈ cleanPhone phone, c.isDigit = true))) ∧
      (validate_phone phone = false →
        ∀ (g : String → Option (ℚ × ℚ)) (genId ts nm nd ur ex ad : String),
          victim_submit g genId ts nm phone nd ur ex ad = none) := by
  constructor
  · unfold validate_phone
    simp only [Bool.and_eq_true, decide_eq_true_eq, Bool.or_eq_true,
      beq_iff_eq, List.all_eq_true, Bool.not_eq_true']
    constructor
    · rintro ⟨hlen, hrest⟩
      refine ⟨hlen, ?_⟩
      rcases hrest with h | ⟨hne, hall⟩
      · exact Or.inl h
      · exact Or.inr hall
    · rintro ⟨hlen, hrest⟩
      refine ⟨hlen, ?_⟩
      rcases hrest with h | hall
      · exact Or.inl h
      · refine Or.inr ⟨?_, hall⟩
        cases hcp : cleanPhone phone with
        | nil => rw [hcp] at hlen; simp at hlen
        | cons c cs => simp
  · intro hv g genId ts nm nd ur ex ad
    by_cases hnm : nm.trim = "" <;> by_cases hph : phone.trim = "" <;>
      by_cases haddr : ad.trim = "" <;>
      simp [victim_submit, hnm, hph, haddr, hv]

/-- Witness for C10: a concrete too-short phone number is rejected and its
submission is not persisted. -/
theorem validatePhoneSpec_witness :
    victim_submit geoNone "g2" "t2" "Ned" "555" "Food" "Medium - Urgent"
      "" "5 Fir St" = none :=
  (validatePhoneSpec "555").2 (by decide) geoNone "g2" "t2" "Ned" "Food"
    "Medium - Urgent" "" "5 Fir St"
